import Mathlib

/-!
Verification of the contact-manager program (HW-8): a shallow embedding of
its record data model, field validation, birthday-window query and command
layer, with theorems settling the specification claims.

Python strings are modelled as Lean `String` (a list of Unicode scalar
values); machine-level detail (interning, encoding) is irrelevant to the
claims.  Python exceptions are modelled with `Except`: a raised exception
is an `error` value carrying the exception kind and message, and the
`input_error` decorator is the adapter converting it to a display string.
Mutation of the address book is modelled by explicit state passing; an
`error` result carries the book state at the moment of the raise, so that
partial mutation before an exception stays observable.
-/

namespace HW8

/-- Exception kinds raised by the program: `ValueError` and `KeyError`.
Python renders `str(ValueError(m)) = m` but `str(KeyError(m))` is the repr
of the argument, i.e. `m` wrapped in single quotes. -/
inductive Err where
  | valueError (msg : String)
  | keyError (msg : String)
deriving Repr, DecidableEq

/-- A single-quote character, written via its code point. -/
def squote : String := ⟨[Char.ofNat 39]⟩

/-- `str(e)` for a caught exception, as used by the `input_error` adapter. -/
def Err.str : Err → String
  | .valueError m => m
  | .keyError m => squote ++ m ++ squote

/-- Numeric value of an ASCII digit character. -/
def digitVal (c : Char) : Nat := c.toNat - 48

/-- The ASCII digit character for `n` (meaningful for `n ≤ 9`). -/
def digitChar (n : Nat) : Char := Char.ofNat (48 + n)

/-- One character of Python's `str.isdigit`: true for characters of Unicode
numeric type Digit or Decimal.  Modelled on the ASCII digits plus the
Latin-1 superscript digits `¹ ² ³`; Python accepts further non-ASCII digit
characters of the same kind, which behave like the superscripts here. -/
def pyIsDigitChar (c : Char) : Bool :=
  c.isDigit || c = '¹' || c = '²' || c = '³'

/-- Python `str.isdigit`: nonempty and every character a digit character. -/
def pyIsdigit (s : String) : Bool :=
  !s.data.isEmpty && s.data.all pyIsDigitChar

/-- Python `sep.join(parts)`. -/
def pyJoin (sep : String) : List String → String
  | [] => ""
  | [x] => x
  | x :: y :: rest => x ++ sep ++ pyJoin sep (y :: rest)

/-- Python `str.strip()` (whitespace at both ends removed). -/
def pyStrip (s : String) : String :=
  ⟨((s.data.dropWhile Char.isWhitespace).reverse.dropWhile Char.isWhitespace).reverse⟩

/-- Python `str.lower()`, on the ASCII letters the program uses. -/
def pyLower (s : String) : String := ⟨s.data.map Char.toLower⟩

/-- Split off the part before the first space character, if any. -/
def splitAtSpace : List Char → Option (List Char × List Char)
  | [] => none
  | c :: cs =>
    if c = ' ' then some ([], cs)
    else match splitAtSpace cs with
      | none => none
      | some (a, b) => some (c :: a, b)

/-- Python `s.split(' ', 2)`: at most two splits, remainder kept whole. -/
def pySplitMax2 (cs : List Char) : List (List Char) :=
  match splitAtSpace cs with
  | none => [cs]
  | some (a, r1) =>
    match splitAtSpace r1 with
    | none => [a, r1]
    | some (b, r2) => [a, b, r2]

/-- Leap year test of the proleptic Gregorian calendar (as `calendar`/
`datetime` use). -/
def isLeap (y : Nat) : Bool :=
  y % 4 == 0 && (y % 100 != 0 || y % 400 == 0)

/-- Number of days in a month. -/
def daysInMonth (y m : Nat) : Nat :=
  if m = 2 then (if isLeap y then 29 else 28)
  else if m = 4 ∨ m = 6 ∨ m = 9 ∨ m = 11 then 30
  else 31

/-- A Python `datetime`: a calendar date plus a time of day (`tod`,
sub-day resolution; `strptime` produces midnight, `tod = 0`). -/
structure DateTime where
  year : Nat
  month : Nat
  day : Nat
  tod : Nat
deriving Repr, DecidableEq

/-- Days before the first day of year `y` (proleptic Gregorian), as in
`datetime.toordinal`. -/
def daysBeforeYear (y : Nat) : Nat :=
  365 * (y - 1) + (y - 1) / 4 - (y - 1) / 100 + (y - 1) / 400

/-- Days of year `y` strictly before month `m`. -/
def daysBeforeMonth (y m : Nat) : Nat :=
  ((List.range (m - 1)).map (fun i => daysInMonth y (i + 1))).sum

/-- `datetime.toordinal`: day number of the date part. -/
def toOrdinal (dt : DateTime) : Nat :=
  daysBeforeYear dt.year + daysBeforeMonth dt.year dt.month + dt.day

/-- A point on the time line: (ordinal day, time of day).  Python compares
`datetime` values exactly in this lexicographic order. -/
def timeline (dt : DateTime) : Nat × Nat := (toOrdinal dt, dt.tod)

/-- Order on time-line points. -/
def tlLe (a b : Nat × Nat) : Bool :=
  a.1 < b.1 || (a.1 == b.1 && a.2 ≤ b.2)

/-- `datetime` comparison `a <= b`. -/
def dtLe (a b : DateTime) : Bool := tlLe (timeline a) (timeline b)

/-- `d.replace(year=y)`: same month/day/time with the year replaced;
fails (ValueError) when the day does not exist in that month of `y`
(29 February in a non-leap year). -/
def replaceYear (dt : DateTime) (y : Nat) : Option DateTime :=
  if dt.day ≤ daysInMonth y dt.month then some { dt with year := y } else none

/-- The two-character zero-padded decimal form of `n ≤ 99`. -/
def pad2Chars (n : Nat) : List Char := [digitChar (n / 10), digitChar (n % 10)]

/-- The four-character zero-padded decimal form of `n ≤ 9999`. -/
def pad4Chars (n : Nat) : List Char :=
  [digitChar (n / 1000 % 10), digitChar (n / 100 % 10),
   digitChar (n / 10 % 10), digitChar (n % 10)]

/-- `strftime("%d.%m.%Y")` on a date (years of interest are four-digit). -/
def strftimeDMY (dt : DateTime) : String :=
  ⟨pad2Chars dt.day ++ '.' :: pad2Chars dt.month ++ '.' :: pad4Chars dt.year⟩

/-- The `%d` field of `strptime`, per CPython's regex
`(3[01]|[12]\d|0[1-9]|[1-9])` with ordered alternation; returns the value
and the remaining characters. -/
def parseDay : List Char → Option (Nat × List Char)
  | [] => none
  | [c] => if '1' ≤ c ∧ c ≤ '9' then some (digitVal c, []) else none
  | c1 :: c2 :: rest =>
    if c1 = '3' ∧ (c2 = '0' ∨ c2 = '1') then some (30 + digitVal c2, rest)
    else if (c1 = '1' ∨ c1 = '2') ∧ c2.isDigit then
      some (10 * digitVal c1 + digitVal c2, rest)
    else if c1 = '0' ∧ ('1' ≤ c2 ∧ c2 ≤ '9') then some (digitVal c2, rest)
    else if '1' ≤ c1 ∧ c1 ≤ '9' then some (digitVal c1, c2 :: rest)
    else none

/-- The `%m` field of `strptime`, per CPython's regex
`(1[0-2]|0[1-9]|[1-9])` with ordered alternation. -/
def parseMonth : List Char → Option (Nat × List Char)
  | [] => none
  | [c] => if '1' ≤ c ∧ c ≤ '9' then some (digitVal c, []) else none
  | c1 :: c2 :: rest =>
    if c1 = '1' ∧ (c2 = '0' ∨ c2 = '1' ∨ c2 = '2') then
      some (10 + digitVal c2, rest)
    else if c1 = '0' ∧ ('1' ≤ c2 ∧ c2 ≤ '9') then some (digitVal c2, rest)
    else if '1' ≤ c1 ∧ c1 ≤ '9' then some (digitVal c1, c2 :: rest)
    else none

/-- The `%Y` field of `strptime`: exactly four digits. -/
def parseYear4 : List Char → Option (Nat × List Char)
  | a :: b :: c :: d :: rest =>
    if a.isDigit ∧ b.isDigit ∧ c.isDigit ∧ d.isDigit then
      some (1000 * digitVal a + 100 * digitVal b + 10 * digitVal c + digitVal d, rest)
    else none
  | _ => none

/-- A literal `.` of the format string: consume exactly one dot. -/
def expectDot : List Char → Option (List Char)
  | [] => none
  | c :: r => if c = '.' then some r else none

/-- `datetime.strptime(s, "%d.%m.%Y")`: the three fields separated by
literal dots, the whole string consumed, then the `datetime` constructor
validates the calendar date. -/
def pyStrptimeDMY (s : String) : Option DateTime :=
  match parseDay s.data with
  | none => none
  | some (d, r1) =>
    match expectDot r1 with
    | none => none
    | some r2 =>
      match parseMonth r2 with
      | none => none
      | some (m, r3) =>
        match expectDot r3 with
        | none => none
        | some r4 =>
          match parseYear4 r4 with
          | none => none
          | some (y, r5) =>
            match r5 with
            | [] =>
              if 1 ≤ y ∧ 1 ≤ m ∧ m ≤ 12 ∧ 1 ≤ d ∧ d ≤ daysInMonth y m then
                some ⟨y, m, d, 0⟩
              else none
            | _ => none

/-- The `Phone` field: a value accepted by `Phone.__init__`. -/
structure Phone where
  value : String
deriving Repr, DecidableEq

/-- `Phone.__init__`: raises ValueError unless `value.isdigit()` holds and
the length is 10. -/
def Phone.init (value : String) : Except Err Phone :=
  if pyIsdigit value = false ∨ value.length ≠ 10 then
    .error (.valueError "Phone number must be 10 digits")
  else .ok ⟨value⟩

/-- The `Birthday` field: holds the parsed `datetime` value. -/
structure Birthday where
  value : DateTime
deriving Repr, DecidableEq

/-- `Birthday.__init__`: parses with `strptime("%d.%m.%Y")`, converting a
parse failure into the format ValueError. -/
def Birthday.init (value : String) : Except Err Birthday :=
  match pyStrptimeDMY value with
  | some dt => .ok ⟨dt⟩
  | none => .error (.valueError "Invalid date format. Use DD.MM.YYYY")

/-- A contact `Record`: name (`Name` wraps the string unvalidated), the
ordered phone list, and the optional birthday. -/
structure Record where
  name : String
  phones : List Phone
  birthday : Option Birthday
deriving Repr, DecidableEq

/-- `Record(name)`. -/
def Record.init (name : String) : Record := ⟨name, [], none⟩

/-- `Record.add_birthday`: sets the birthday when unset, raises when one is
already present. -/
def Record.add_birthday (r : Record) (birthday : String) : Except Err Record :=
  match r.birthday with
  | none => (Birthday.init birthday).map fun b => { r with birthday := some b }
  | some _ =>
    .error (.valueError "Birthday is already set. To change it, use the change_birthday.")

/-- `Record.add_phone`: validates then appends. -/
def Record.add_phone (r : Record) (phone : String) : Except Err Record :=
  (Phone.init phone).map fun p => { r with phones := r.phones ++ [p] }

/-- The loop body of `Record.change_phone`: replace the first phone whose
value equals `old` by a freshly validated phone, else raise. -/
def changeList (old new : String) : List Phone → Except Err (List Phone)
  | [] => .error (.valueError "Old phone not found.")
  | p :: ps =>
    if p.value = old then (Phone.init new).map fun np => np :: ps
    else (changeList old new ps).map fun l => p :: l

/-- `Record.change_phone`. -/
def Record.change_phone (r : Record) (old new : String) : Except Err Record :=
  (changeList old new r.phones).map fun l => { r with phones := l }

/-- `Record.show_phones`: comma-joined phone values. -/
def Record.show_phones (r : Record) : String :=
  pyJoin ", " (r.phones.map Phone.value)

/-- Lookup in a Python dict modelled as an insertion-ordered association
list with unique keys. -/
def dictGet (l : List (String × Record)) (key : String) : Option Record :=
  match l with
  | [] => none
  | (k, v) :: rest => if k = key then some v else dictGet rest key

/-- Assignment `d[key] = v` in a Python dict: replaces in place when the
key is present, appends otherwise. -/
def dictInsert (l : List (String × Record)) (key : String) (v : Record) :
    List (String × Record) :=
  match l with
  | [] => [(key, v)]
  | (k0, v0) :: rest =>
    if k0 = key then (k0, v) :: rest else (k0, v0) :: dictInsert rest key v

/-- `AddressBook(UserDict)`: its `data` dict from name to record. -/
structure AddressBook where
  data : List (String × Record)
deriving Repr, DecidableEq

/-- `AddressBook.add_record`: keyed by the record's own name. -/
def AddressBook.add_record (book : AddressBook) (record : Record) : AddressBook :=
  ⟨dictInsert book.data record.name record⟩

/-- One loop iteration of `get_upcoming_birthdays` on a single record:
skip it when no birthday is set, compute the occurrence by replacing the
year (raising the ValueError when undefined), and emit the name and
formatted occurrence when it lies in `[today, today + 7 days]`. -/
def upcomingStep (today : DateTime) (r : Record) :
    Except Err (Option (String × String)) :=
  match r.birthday with
  | none => .ok none
  | some b =>
    match replaceYear b.value today.year with
    | none => .error (.valueError "day is out of range for month")
    | some occ =>
      if dtLe today occ ∧ tlLe (timeline occ) (toOrdinal today + 7, today.tod) then
        .ok (some (r.name, strftimeDMY occ))
      else .ok none

/-- The loop of `get_upcoming_birthdays` over the stored records; a raise
aborts the whole loop, discarding matches collected so far. -/
def upcomingGo (today : DateTime) : List (String × Record) →
    Except Err (List (String × String))
  | [] => .ok []
  | (_, r) :: rest =>
    match upcomingStep today r with
    | .error e => .error e
    | .ok none => upcomingGo today rest
    | .ok (some item) => (upcomingGo today rest).map fun l => item :: l

/-- `AddressBook.get_upcoming_birthdays`, with `today` standing for the
`datetime.now()` the source reads. -/
def AddressBook.get_upcoming_birthdays (book : AddressBook) (today : DateTime) :
    Except Err (List (String × String)) :=
  upcomingGo today book.data

/-- The phone-adding loop of the `add_contact` handler.  Returns the record
state after the successful prefix together with the raised error, if any:
when the record aliases one stored in the book, those appends are visible
there even if a later phone fails validation. -/
def addPhones (r : Record) : List String → Record × Option Err
  | [] => (r, none)
  | p :: ps =>
    match Phone.init p with
    | .ok ph => addPhones { r with phones := r.phones ++ [ph] } ps
    | .error e => (r, some e)

/-- The success message of the `add` handler. -/
def addMsg (name : String) (phones : List String) : String :=
  "Contact " ++ name ++ " added/updated with phone(s): " ++
    pyJoin "; " phones ++ "."

/-- The `add` handler.  An `error` result carries the book state at the
moment of the raise: for an existing name the fetched record aliases the
stored one, so phones appended before a failure remain in the book. -/
def add_contact (args : List String) (book : AddressBook) :
    Except (Err × AddressBook) (String × AddressBook) :=
  match args with
  | name :: phone1 :: rest =>
    match dictGet book.data name with
    | some r0 =>
      match addPhones r0 (phone1 :: rest) with
      | (r1, none) =>
        .ok (addMsg name (phone1 :: rest),
             (AddressBook.mk (dictInsert book.data name r1)).add_record r1)
      | (r1, some e) => .error (e, ⟨dictInsert book.data name r1⟩)
    | none =>
      match addPhones (Record.init name) (phone1 :: rest) with
      | (r1, none) =>
        .ok (addMsg name (phone1 :: rest), AddressBook.mk book.data |>.add_record r1)
      | (_, some e) => .error (e, book)
  | _ =>
    .error (.valueError "Please enter a name and at least one phone number.", book)

/-- The `change` handler. -/
def change_contact (args : List String) (book : AddressBook) :
    Except (Err × AddressBook) (String × AddressBook) :=
  match args with
  | [name, old_phone, new_phone] =>
    match dictGet book.data name with
    | none => .error (.keyError "Contact not found.", book)
    | some r =>
      match r.change_phone old_phone new_phone with
      | .error e => .error (e, book)
      | .ok r1 =>
        .ok ("Contact " ++ name ++ squote ++ "s phone number changed from " ++
              old_phone ++ " to " ++ new_phone ++ ".",
             ⟨dictInsert book.data name r1⟩)
  | _ =>
    .error (.valueError "Please enter a name, old phone number, and new phone number.",
            book)

/-- The `phone` handler. -/
def show_phone (args : List String) (book : AddressBook) :
    Except (Err × AddressBook) (String × AddressBook) :=
  match args with
  | [name] =>
    match dictGet book.data name with
    | none => .error (.keyError "Contact not found.", book)
    | some r => .ok (name ++ ": " ++ r.show_phones, book)
  | _ => .error (.valueError "Please enter a name.", book)

/-- The `all` handler. -/
def show_all (book : AddressBook) :
    Except (Err × AddressBook) (String × AddressBook) :=
  match book.data with
  | [] => .ok ("No contacts found.", book)
  | e :: rest =>
    .ok (pyJoin "\n" ((e :: rest).map fun nr => nr.1 ++ ": " ++ nr.2.show_phones),
         book)

/-- The `add-birthday` handler. -/
def add_birthday (args : List String) (book : AddressBook) :
    Except (Err × AddressBook) (String × AddressBook) :=
  match args with
  | [name, birthday] =>
    match dictGet book.data name with
    | some r =>
      match r.add_birthday birthday with
      | .ok r1 => .ok ("Birthday for " ++ name ++ " added.", ⟨dictInsert book.data name r1⟩)
      | .error e => .error (e, book)
    | none => .ok ("Contact not found.", book)
  | _ =>
    .error (.valueError "Please enter a name and birthday in DD.MM.YYYY format.", book)

/-- The `show-birthday` handler. -/
def show_birthday (args : List String) (book : AddressBook) :
    Except (Err × AddressBook) (String × AddressBook) :=
  match args with
  | [name] =>
    match dictGet book.data name with
    | some r =>
      match r.birthday with
      | some b =>
        .ok (name ++ squote ++ "s birthday is on " ++ strftimeDMY b.value, book)
      | none => .ok ("Birthday not found.", book)
    | none => .ok ("Birthday not found.", book)
  | _ => .error (.valueError "Please enter a name.", book)

/-- The `birthdays` handler; `today` stands for `datetime.now()` and the
unused `args` parameter (`None` at the call site) is kept for fidelity. -/
def birthdays (today : DateTime) (_args : Option (List String)) (book : AddressBook) :
    Except (Err × AddressBook) (String × AddressBook) :=
  match book.get_upcoming_birthdays today with
  | .error e => .error (e, book)
  | .ok upcoming =>
    match upcoming with
    | [] => .ok ("No upcoming birthdays next week.", book)
    | u :: us =>
      .ok ("Upcoming birthdays:\n" ++
            pyJoin "\n" ((u :: us).map fun nd => nd.1 ++ " on " ++ nd.2),
           book)

/-- The `input_error` decorator: run the handler and convert a raised
exception into its display string, keeping the book state it left. -/
def input_error {α : Type}
    (func : α → AddressBook → Except (Err × AddressBook) (String × AddressBook)) :
    α → AddressBook → String × AddressBook :=
  fun a book =>
    match func a book with
    | .ok res => res
    | .error (e, b) => (e.str, b)

/-- `add_contact` as wrapped by the decorator. -/
def wrapped_add_contact : List String → AddressBook → String × AddressBook :=
  input_error add_contact

/-- `change_contact` as wrapped by the decorator. -/
def wrapped_change_contact : List String → AddressBook → String × AddressBook :=
  input_error change_contact

/-- `show_phone` as wrapped by the decorator. -/
def wrapped_show_phone : List String → AddressBook → String × AddressBook :=
  input_error show_phone

/-- `show_all` as wrapped by the decorator. -/
def wrapped_show_all (book : AddressBook) : String × AddressBook :=
  input_error (fun (_ : Unit) b => show_all b) () book

/-- `add_birthday` as wrapped by the decorator. -/
def wrapped_add_birthday : List String → AddressBook → String × AddressBook :=
  input_error add_birthday

/-- `show_birthday` as wrapped by the decorator. -/
def wrapped_show_birthday : List String → AddressBook → String × AddressBook :=
  input_error show_birthday

/-- `birthdays` as wrapped by the decorator. -/
def wrapped_birthdays (today : DateTime) :
    Option (List String) → AddressBook → String × AddressBook :=
  input_error (birthdays today)

/-- `parse_input`: strip, split on single spaces with maxsplit 2, lowercase
the verb. -/
def parse_input (user_input : String) : String × List String :=
  match (pySplitMax2 (pyStrip user_input).data).map (fun l => (⟨l⟩ : String)) with
  | [] => ("", [])
  | c :: rest => (pyLower c, rest)

/-- Taken from the wording of the specification: a string of exactly ten
ASCII decimal digits (`Char.isDigit` is the ASCII digit test). -/
def specAsciiDigits (s : String) : Bool :=
  s.length == 10 && s.data.all Char.isDigit

/-- Taken from the wording of the specification: the strict `DD.MM.YYYY`
shape — two-digit day, two-digit month, four-digit year, all ASCII digits —
denoting a valid calendar date. -/
def specStrictDDMMYYYY (s : String) : Bool :=
  match s.data with
  | [d1, d2, '.', m1, m2, '.', y1, y2, y3, y4] =>
    (d1.isDigit && d2.isDigit && m1.isDigit && m2.isDigit &&
     y1.isDigit && y2.isDigit && y3.isDigit && y4.isDigit) &&
    (let d := 10 * digitVal d1 + digitVal d2
     let m := 10 * digitVal m1 + digitVal m2
     let y := 1000 * digitVal y1 + 100 * digitVal y2 + 10 * digitVal y3 + digitVal y4
     decide (1 ≤ y ∧ 1 ≤ m ∧ m ≤ 12 ∧ 1 ≤ d ∧ d ≤ daysInMonth y m))
  | _ => false

/-- Taken from the wording of the specification, with `strptime`'s
documented field shapes made explicit: the text is day, month and
four-digit year separated by dots, where day and month may be written with
or without a leading zero, and the triple denotes a valid calendar date. -/
def specLenientDate (s : String) : Prop :=
  ∃ y m d : Nat,
    1 ≤ y ∧ y ≤ 9999 ∧ 1 ≤ m ∧ m ≤ 12 ∧ 1 ≤ d ∧ d ≤ daysInMonth y m ∧
    ∃ ds ms : List Char,
      (ds = pad2Chars d ∨ (d ≤ 9 ∧ ds = [digitChar d])) ∧
      (ms = pad2Chars m ∨ (m ≤ 9 ∧ ms = [digitChar m])) ∧
      s.data = ds ++ '.' :: (ms ++ '.' :: pad4Chars y)

/-- Taken from the wording of the specification: the record has a birthday
set and its occurrence — the birthday date with the year replaced by the
reference year — lies between the reference instant and seven days later. -/
def specInWindow (today : DateTime) (r : Record) : Bool :=
  match r.birthday with
  | none => false
  | some b =>
    match replaceYear b.value today.year with
    | none => false
    | some occ => dtLe today occ && tlLe (timeline occ) (toOrdinal today + 7, today.tod)

/-- Well-formedness a Python dict guarantees for `AddressBook.data`: keys
are unique, and the program keys every record by its own name. -/
def bookWF (book : AddressBook) : Prop :=
  (book.data.map Prod.fst).Nodup ∧ ∀ e ∈ book.data, e.2.name = e.1

/-- The empty address book. -/
def emptyBook : AddressBook := ⟨[]⟩

/-- A book holding Alice with the single phone 1111111111. -/
def bookAlice : AddressBook := ⟨[("Alice", ⟨"Alice", [⟨"1111111111"⟩], none⟩)]⟩

/-- Records with birthdays 5 June, 15 June and 30 May 2000, for the
window examples. -/
def bookJune : AddressBook :=
  ⟨[("A", ⟨"A", [], some ⟨⟨2000, 6, 5, 0⟩⟩⟩),
    ("B", ⟨"B", [], some ⟨⟨2000, 6, 15, 0⟩⟩⟩),
    ("C", ⟨"C", [], some ⟨⟨2000, 5, 30, 0⟩⟩⟩)]⟩

/-- The reference instant 2024-06-01 00:00. -/
def refJune1 : DateTime := ⟨2024, 6, 1, 0⟩

/-- A book holding one record whose birthday is 29 February 2024. -/
def bookLeap : AddressBook := ⟨[("Leap", ⟨"Leap", [], some ⟨⟨2024, 2, 29, 0⟩⟩⟩)]⟩

/-- The reference instant 2023-06-01 00:00, in a non-leap year. -/
def refNonLeap : DateTime := ⟨2023, 6, 1, 0⟩

/-- The ten-character string of nine ASCII digits followed by the
superscript-two character (Unicode U+00B2), which Python counts as a
digit. -/
def phoneSuper : String := "123456789²"

/-- A record holding the single phone 1111111111. -/
def recX : Record := ⟨"X", [⟨"1111111111"⟩], none⟩

/-- A fresh record with no birthday. -/
def recBob : Record := ⟨"Bob", [], none⟩

/-- Decidable equality of `Except` results, for evaluating concrete runs. -/
instance {ε α : Type} [DecidableEq ε] [DecidableEq α] : DecidableEq (Except ε α) :=
  fun a b =>
    match a, b with
    | .ok x, .ok y =>
      if h : x = y then isTrue (by rw [h])
      else isFalse (by intro hc; injection hc; contradiction)
    | .error x, .error y =>
      if h : x = y then isTrue (by rw [h])
      else isFalse (by intro hc; injection hc; contradiction)
    | .ok _, .error _ => isFalse (by intro hc; injection hc)
    | .error _, .ok _ => isFalse (by intro hc; injection hc)

/-! ### Helper lemmas -/

theorem phone_init_error {p : String} {e : Err} (h : Phone.init p = .error e) :
    e = .valueError "Phone number must be 10 digits" := by
  unfold Phone.init at h
  split at h
  · injection h with h1
    exact h1.symm
  · exact absurd h (by simp)

theorem birthday_init_error {s : String} {e : Err} (h : Birthday.init s = .error e) :
    e = .valueError "Invalid date format. Use DD.MM.YYYY" := by
  unfold Birthday.init at h
  split at h
  · exact absurd h (by simp)
  · injection h with h1
    exact h1.symm

theorem changeList_not_found {old new : String} {ps : List Phone}
    (h : ∀ p ∈ ps, p.value ≠ old) :
    changeList old new ps = .error (.valueError "Old phone not found.") := by
  induction ps with
  | nil => rfl
  | cons p ps ih =>
    unfold changeList
    rw [if_neg (h p (List.mem_cons_self p ps))]
    rw [ih (fun q hq => h q (List.mem_cons_of_mem p hq))]
    rfl

theorem changeList_found_ok {old new : String} {pre post : List Phone} {ph np : Phone}
    (hpre : ∀ p ∈ pre, p.value ≠ old) (hph : ph.value = old)
    (hnew : Phone.init new = .ok np) :
    changeList old new (pre ++ ph :: post) = .ok (pre ++ np :: post) := by
  induction pre with
  | nil => simp [changeList, hph, hnew, Except.map]
  | cons q pre ih =>
    rw [List.cons_append]
    simp only [changeList]
    rw [if_neg (hpre q (List.mem_cons_self q pre))]
    rw [ih (fun p hp => hpre p (List.mem_cons_of_mem q hp))]
    rfl

theorem changeList_found_error {old new : String} {pre post : List Phone} {ph : Phone}
    {e : Err}
    (hpre : ∀ p ∈ pre, p.value ≠ old) (hph : ph.value = old)
    (hnew : Phone.init new = .error e) :
    changeList old new (pre ++ ph :: post) = .error e := by
  induction pre with
  | nil => simp [changeList, hph, hnew, Except.map]
  | cons q pre ih =>
    rw [List.cons_append]
    simp only [changeList]
    rw [if_neg (hpre q (List.mem_cons_self q pre))]
    rw [ih (fun p hp => hpre p (List.mem_cons_of_mem q hp))]
    rfl

theorem dictGet_insert_self (l : List (String × Record)) (k : String) (v : Record) :
    dictGet (dictInsert l k v) k = some v := by
  induction l with
  | nil => simp [dictGet, dictInsert]
  | cons e rest ih =>
    obtain ⟨k0, v0⟩ := e
    by_cases h : k0 = k
    · simp [dictGet, dictInsert, h]
    · simp [dictGet, dictInsert, h, ih]

theorem dictInsert_of_get_none {l : List (String × Record)} {k : String}
    (v : Record) (h : dictGet l k = none) :
    dictInsert l k v = l ++ [(k, v)] := by
  induction l with
  | nil => rfl
  | cons e rest ih =>
    obtain ⟨k0, v0⟩ := e
    unfold dictGet at h
    by_cases hk : k0 = k
    · rw [if_pos hk] at h
      exact absurd h (by simp)
    · rw [if_neg hk] at h
      simp [dictInsert, hk, ih h]

theorem dictGet_append_of_none {l l2 : List (String × Record)} {k : String}
    (h : dictGet l k = none) :
    dictGet (l ++ l2) k = dictGet l2 k := by
  induction l with
  | nil => rfl
  | cons e rest ih =>
    obtain ⟨k0, v0⟩ := e
    unfold dictGet at h
    by_cases hk : k0 = k
    · rw [if_pos hk] at h
      exact absurd h (by simp)
    · rw [if_neg hk] at h
      simp [dictGet, hk, ih h]

theorem dictInsert_mapfst_of_get_some {l : List (String × Record)} {k : String}
    {w : Record} (v : Record) (h : dictGet l k = some w) :
    (dictInsert l k v).map Prod.fst = l.map Prod.fst := by
  induction l with
  | nil => exact absurd h (by simp [dictGet])
  | cons e rest ih =>
    obtain ⟨k0, v0⟩ := e
    unfold dictGet at h
    by_cases hk : k0 = k
    · simp [dictInsert, hk]
    · rw [if_neg hk] at h
      simp [dictInsert, hk, ih h]

theorem dictInsert_insert (l : List (String × Record)) (k : String) (v w : Record) :
    dictInsert (dictInsert l k v) k w = dictInsert l k w := by
  induction l with
  | nil => simp [dictInsert]
  | cons e rest ih =>
    obtain ⟨k0, v0⟩ := e
    by_cases h : k0 = k
    · simp [dictInsert, h]
    · simp [dictInsert, h, ih]

theorem count_zero_of_get_none {l : List (String × Record)} {k : String}
    (h : dictGet l k = none) : (l.map Prod.fst).count k = 0 := by
  induction l with
  | nil => rfl
  | cons e rest ih =>
    obtain ⟨k0, v0⟩ := e
    unfold dictGet at h
    by_cases hk : k0 = k
    · rw [if_pos hk] at h
      exact absurd h (by simp)
    · rw [if_neg hk] at h
      simpa [List.count_cons, hk] using ih h

theorem dictGet_mem {l : List (String × Record)} {k : String} {v : Record}
    (h : dictGet l k = some v) : (k, v) ∈ l := by
  induction l with
  | nil => exact absurd h (by simp [dictGet])
  | cons e rest ih =>
    obtain ⟨k0, v0⟩ := e
    unfold dictGet at h
    by_cases hk : k0 = k
    · rw [if_pos hk] at h
      injection h with h1
      rw [← hk, h1]
      exact List.mem_cons_self _ _
    · rw [if_neg hk] at h
      exact List.mem_cons_of_mem _ (ih h)

theorem addPhones_one {r : Record} {p : String} {pp : Phone}
    (hp : Phone.init p = .ok pp) :
    addPhones r [p] = ({ r with phones := r.phones ++ [pp] }, none) := by
  simp [addPhones, hp]

theorem addPhones_invalid {ps : List String} (r : Record)
    (hbad : ∃ p ∈ ps, (Phone.init p).isOk = false) :
    ∃ r1 e, addPhones r ps = (r1, some e) := by
  induction ps generalizing r with
  | nil => simp at hbad
  | cons p ps ih =>
    cases hp : Phone.init p with
    | error e => exact ⟨r, e, by simp [addPhones, hp]⟩
    | ok ph =>
      obtain ⟨x, hx, hxbad⟩ := hbad
      rcases List.mem_cons.mp hx with rfl | hxs
      · rw [hp] at hxbad
        simp [Except.isOk, Except.toBool] at hxbad
      · obtain ⟨r1, e, h1⟩ :=
          ih { r with phones := r.phones ++ [ph] } ⟨x, hxs, hxbad⟩
        exact ⟨r1, e, by simp [addPhones, hp, h1]⟩

theorem add_contact_fresh {book : AddressBook} {name p : String} {pp : Phone}
    (hget : dictGet book.data name = none) (hp : Phone.init p = .ok pp) :
    add_contact [name, p] book =
      .ok (addMsg name [p],
           ⟨book.data ++ [(name, ⟨name, [pp], none⟩)]⟩) := by
  unfold add_contact
  simp only [hget, addPhones_one hp]
  show Except.ok (_, AddressBook.add_record _ _) = _
  unfold AddressBook.add_record Record.init
  rw [dictInsert_of_get_none _ hget]
  rfl

theorem add_contact_existing {book : AddressBook} {name p : String}
    {r0 : Record} {pp : Phone}
    (hget : dictGet book.data name = some r0) (hname : r0.name = name)
    (hp : Phone.init p = .ok pp) :
    add_contact [name, p] book =
      .ok (addMsg name [p],
           ⟨dictInsert book.data name { r0 with phones := r0.phones ++ [pp] }⟩) := by
  unfold add_contact
  simp only [hget, addPhones_one hp]
  show Except.ok (_, AddressBook.add_record _ _) = _
  unfold AddressBook.add_record
  simp only [hname]
  rw [dictInsert_insert]

theorem char_le_toNat {a b : Char} (h : a ≤ b) : a.toNat ≤ b.toNat := by
  rw [Char.le_def] at h
  exact h

theorem isDigit_toNat {c : Char} (h : c.isDigit = true) :
    48 ≤ c.toNat ∧ c.toNat ≤ 57 := by
  unfold Char.isDigit at h
  simp only [Bool.and_eq_true, decide_eq_true_eq] at h
  exact h

theorem toNat_digitChar {n : Nat} (h : n ≤ 9) : (digitChar n).toNat = 48 + n := by
  unfold digitChar Char.ofNat
  split
  · rfl
  · rename_i hv
    exact absurd (by unfold Nat.isValidChar; omega) hv

theorem digitChar_digitVal {c : Char} (h48 : 48 ≤ c.toNat) :
    digitChar (digitVal c) = c := by
  unfold digitChar digitVal
  rw [show 48 + (c.toNat - 48) = c.toNat by omega]
  exact Char.ofNat_toNat c

theorem digitVal_digitChar {n : Nat} (h : n ≤ 9) : digitVal (digitChar n) = n := by
  unfold digitVal
  rw [toNat_digitChar h]
  omega

theorem isDigit_digitChar {n : Nat} (h : n ≤ 9) : (digitChar n).isDigit = true := by
  unfold Char.isDigit
  simp only [Bool.and_eq_true, decide_eq_true_eq]
  have ht := toNat_digitChar h
  exact ⟨le_trans (by omega : (48 : Nat) ≤ 48 + n) (le_of_eq ht.symm),
    le_trans (le_of_eq ht) (by omega : 48 + n ≤ 57)⟩

theorem parseDay_pad2 (d : Nat) (rest : List Char) (h1 : 1 ≤ d) (h2 : d ≤ 31) :
    parseDay (pad2Chars d ++ rest) = some (d, rest) := by
  interval_cases d <;> simp [parseDay, pad2Chars, digitChar, digitVal]

theorem parseDay_single (d : Nat) (rest : List Char) (h1 : 1 ≤ d) (h2 : d ≤ 9) :
    parseDay (digitChar d :: '.' :: rest) = some (d, '.' :: rest) := by
  interval_cases d <;> simp [parseDay, digitChar, digitVal]

theorem parseMonth_pad2 (m : Nat) (rest : List Char) (h1 : 1 ≤ m) (h2 : m ≤ 12) :
    parseMonth (pad2Chars m ++ rest) = some (m, rest) := by
  interval_cases m <;> simp [parseMonth, pad2Chars, digitChar, digitVal]

theorem parseMonth_single (m : Nat) (rest : List Char) (h1 : 1 ≤ m) (h2 : m ≤ 9) :
    parseMonth (digitChar m :: '.' :: rest) = some (m, '.' :: rest) := by
  interval_cases m <;> simp [parseMonth, digitChar, digitVal]

theorem parseYear4_complete (y : Nat) (rest : List Char) (h : y ≤ 9999) :
    parseYear4 (pad4Chars y ++ rest) = some (y, rest) := by
  show parseYear4 (digitChar (y / 1000 % 10) :: digitChar (y / 100 % 10) ::
    digitChar (y / 10 % 10) :: digitChar (y % 10) :: rest) = some (y, rest)
  simp only [parseYear4]
  rw [if_pos]
  · rw [digitVal_digitChar (by omega), digitVal_digitChar (by omega),
      digitVal_digitChar (by omega), digitVal_digitChar (by omega)]
    rw [show 1000 * (y / 1000 % 10) + 100 * (y / 100 % 10) + 10 * (y / 10 % 10) +
      y % 10 = y by omega]
  · exact ⟨isDigit_digitChar (by omega), isDigit_digitChar (by omega),
      isDigit_digitChar (by omega), isDigit_digitChar (by omega)⟩

theorem parseDay_sound {cs : List Char} {d : Nat} {rest : List Char}
    (h : parseDay cs = some (d, rest)) :
    1 ≤ d ∧ d ≤ 31 ∧
      (cs = pad2Chars d ++ rest ∨ (d ≤ 9 ∧ cs = digitChar d :: rest)) := by
  match cs with
  | [] => simp [parseDay] at h
  | [c] =>
    simp only [parseDay] at h
    split at h
    · rename_i hc
      injection h with h1
      injection h1 with hd hr
      have h49 : 49 ≤ c.toNat := by simpa using char_le_toNat hc.1
      have h57 : c.toNat ≤ 57 := by simpa using char_le_toNat hc.2
      have hdv : d = digitVal c := hd.symm
      have hdb : 1 ≤ d ∧ d ≤ 9 := by
        rw [hdv]
        unfold digitVal
        omega
      refine ⟨hdb.1, by omega, Or.inr ⟨hdb.2, ?_⟩⟩
      rw [hdv, digitChar_digitVal (by omega), ← hr]
    · simp at h
  | c1 :: c2 :: rest0 =>
    simp only [parseDay] at h
    split at h
    · rename_i hc
      obtain ⟨hc1, hc2⟩ := hc
      subst hc1
      injection h with h1
      injection h1 with hd hr
      rcases hc2 with rfl | rfl
      · have hd30 : d = 30 := by rw [← hd]; decide
        subst hd30
        refine ⟨by omega, by omega, Or.inl ?_⟩
        rw [← hr]
        simp [pad2Chars, digitChar]
      · have hd31 : d = 31 := by rw [← hd]; decide
        subst hd31
        refine ⟨by omega, by omega, Or.inl ?_⟩
        rw [← hr]
        simp [pad2Chars, digitChar]
    · split at h
      · rename_i hc
        obtain ⟨hc1, hc2⟩ := hc
        injection h with h1
        injection h1 with hd hr
        have hv2 := isDigit_toNat hc2
        have hdig2 : digitVal c2 ≤ 9 := by unfold digitVal; omega
        rcases hc1 with rfl | rfl
        · have hv1 : digitVal '1' = 1 := by decide
          rw [hv1] at hd
          refine ⟨by omega, by omega, Or.inl ?_⟩
          rw [← hr, ← hd]
          unfold pad2Chars
          rw [show (10 * 1 + digitVal c2) / 10 = 1 by omega,
            show (10 * 1 + digitVal c2) % 10 = digitVal c2 by omega,
            digitChar_digitVal (by omega : 48 ≤ c2.toNat)]
          rfl
        · have hv1 : digitVal '2' = 2 := by decide
          rw [hv1] at hd
          refine ⟨by omega, by omega, Or.inl ?_⟩
          rw [← hr, ← hd]
          unfold pad2Chars
          rw [show (10 * 2 + digitVal c2) / 10 = 2 by omega,
            show (10 * 2 + digitVal c2) % 10 = digitVal c2 by omega,
            digitChar_digitVal (by omega : 48 ≤ c2.toNat)]
          rfl
      · split at h
        · rename_i hc
          obtain ⟨hc1, hc2⟩ := hc
          subst hc1
          injection h with h1
          injection h1 with hd hr
          have h49 : 49 ≤ c2.toNat := by simpa using char_le_toNat hc2.1
          have h57 : c2.toNat ≤ 57 := by simpa using char_le_toNat hc2.2
          have hdb : 1 ≤ d ∧ d ≤ 9 := by
            rw [← hd]
            unfold digitVal
            omega
          refine ⟨hdb.1, by omega, Or.inl ?_⟩
          rw [← hr, ← hd]
          unfold pad2Chars
          rw [show digitVal c2 / 10 = 0 by unfold digitVal; omega,
            show digitVal c2 % 10 = digitVal c2 by unfold digitVal; omega,
            digitChar_digitVal (by omega : 48 ≤ c2.toNat)]
          rfl
        · split at h
          · rename_i hc
            injection h with h1
            injection h1 with hd hr
            have h49 : 49 ≤ c1.toNat := by simpa using char_le_toNat hc.1
            have h57 : c1.toNat ≤ 57 := by simpa using char_le_toNat hc.2
            have hdb : 1 ≤ d ∧ d ≤ 9 := by
              rw [← hd]
              unfold digitVal
              omega
            refine ⟨hdb.1, by omega, Or.inr ⟨hdb.2, ?_⟩⟩
            rw [← hr, ← hd, digitChar_digitVal (by omega : 48 ≤ c1.toNat)]
          · simp at h

theorem parseMonth_sound {cs : List Char} {m : Nat} {rest : List Char}
    (h : parseMonth cs = some (m, rest)) :
    1 ≤ m ∧ m ≤ 12 ∧
      (cs = pad2Chars m ++ rest ∨ (m ≤ 9 ∧ cs = digitChar m :: rest)) := by
  match cs with
  | [] => simp [parseMonth] at h
  | [c] =>
    simp only [parseMonth] at h
    split at h
    · rename_i hc
      injection h with h1
      injection h1 with hd hr
      have h49 : 49 ≤ c.toNat := by simpa using char_le_toNat hc.1
      have h57 : c.toNat ≤ 57 := by simpa using char_le_toNat hc.2
      have hdb : 1 ≤ m ∧ m ≤ 9 := by
        rw [← hd]
        unfold digitVal
        omega
      refine ⟨hdb.1, by omega, Or.inr ⟨hdb.2, ?_⟩⟩
      rw [← hd, digitChar_digitVal (by omega), ← hr]
    · simp at h
  | c1 :: c2 :: rest0 =>
    simp only [parseMonth] at h
    split at h
    · rename_i hc
      obtain ⟨hc1, hc2⟩ := hc
      subst hc1
      injection h with h1
      injection h1 with hd hr
      rcases hc2 with rfl | rfl | rfl
      · have hm10 : m = 10 := by rw [← hd]; decide
        subst hm10
        refine ⟨by omega, by omega, Or.inl ?_⟩
        rw [← hr]
        simp [pad2Chars, digitChar]
      · have hm11 : m = 11 := by rw [← hd]; decide
        subst hm11
        refine ⟨by omega, by omega, Or.inl ?_⟩
        rw [← hr]
        simp [pad2Chars, digitChar]
      · have hm12 : m = 12 := by rw [← hd]; decide
        subst hm12
        refine ⟨by omega, by omega, Or.inl ?_⟩
        rw [← hr]
        simp [pad2Chars, digitChar]
    · split at h
      · rename_i hc
        obtain ⟨hc1, hc2⟩ := hc
        subst hc1
        injection h with h1
        injection h1 with hd hr
        have h49 : 49 ≤ c2.toNat := by simpa using char_le_toNat hc2.1
        have h57 : c2.toNat ≤ 57 := by simpa using char_le_toNat hc2.2
        have hdb : 1 ≤ m ∧ m ≤ 9 := by
          rw [← hd]
          unfold digitVal
          omega
        refine ⟨hdb.1, by omega, Or.inl ?_⟩
        rw [← hr, ← hd]
        unfold pad2Chars
        rw [show digitVal c2 / 10 = 0 by unfold digitVal; omega,
          show digitVal c2 % 10 = digitVal c2 by unfold digitVal; omega,
          digitChar_digitVal (by omega : 48 ≤ c2.toNat)]
        rfl
      · split at h
        · rename_i hc
          injection h with h1
          injection h1 with hd hr
          have h49 : 49 ≤ c1.toNat := by simpa using char_le_toNat hc.1
          have h57 : c1.toNat ≤ 57 := by simpa using char_le_toNat hc.2
          have hdb : 1 ≤ m ∧ m ≤ 9 := by
            rw [← hd]
            unfold digitVal
            omega
          refine ⟨hdb.1, by omega, Or.inr ⟨hdb.2, ?_⟩⟩
          rw [← hr, ← hd, digitChar_digitVal (by omega : 48 ≤ c1.toNat)]
        · simp at h

theorem parseYear4_sound {cs : List Char} {y : Nat} {rest : List Char}
    (h : parseYear4 cs = some (y, rest)) :
    y ≤ 9999 ∧ cs = pad4Chars y ++ rest := by
  match cs with
  | [] => simp [parseYear4] at h
  | [_] => simp [parseYear4] at h
  | [_, _] => simp [parseYear4] at h
  | [_, _, _] => simp [parseYear4] at h
  | a :: b :: c :: e :: rest0 =>
    simp only [parseYear4] at h
    split at h
    · rename_i hc
      obtain ⟨ha, hb, hcc, he⟩ := hc
      injection h with h1
      injection h1 with hy hr
      have na := isDigit_toNat ha
      have nb := isDigit_toNat hb
      have nc := isDigit_toNat hcc
      have ne2 := isDigit_toNat he
      unfold digitVal at hy
      constructor
      · omega
      · rw [← hr]
        unfold pad4Chars
        rw [show y / 1000 % 10 = digitVal a by unfold digitVal; omega,
          show y / 100 % 10 = digitVal b by unfold digitVal; omega,
          show y / 10 % 10 = digitVal c by unfold digitVal; omega,
          show y % 10 = digitVal e by unfold digitVal; omega,
          digitChar_digitVal na.1, digitChar_digitVal nb.1,
          digitChar_digitVal nc.1, digitChar_digitVal ne2.1]
        rfl
    · simp at h

theorem expectDot_sound {cs r : List Char} (h : expectDot cs = some r) :
    cs = '.' :: r := by
  match cs with
  | [] => simp [expectDot] at h
  | c :: r0 =>
    simp only [expectDot] at h
    split at h
    · rename_i hc
      subst hc
      injection h with h1
      rw [h1]
    · simp at h

/-! ### Claim C1 -/

/-- C1: refuted as stated; the code contradicts its own help text.  Feeding
the raw line `change Alice 1111111111 2222222222` through `parse_input`
yields only two arguments, because the source splits with maxsplit 2, so
the wrapped change handler answers with the arity-error message and leaves
the store untouched; the handler itself, given the three arguments
separately, does perform the replacement, showing the parse layer is what
makes the documented `change` verb unusable. -/
theorem change_command_maxsplit_bug :
    parse_input "change Alice 1111111111 2222222222" =
      ("change", ["Alice", "1111111111 2222222222"]) ∧
    wrapped_change_contact ["Alice", "1111111111 2222222222"] bookAlice =
      ("Please enter a name, old phone number, and new phone number.", bookAlice) ∧
    change_contact ["Alice", "1111111111", "2222222222"] bookAlice =
      .ok ("Contact Alice" ++ squote ++
            "s phone number changed from 1111111111 to 2222222222.",
           AddressBook.mk [("Alice", Record.mk "Alice" [Phone.mk "2222222222"] none)]) :=
  ⟨by decide, by decide, rfl⟩

/-! ### Claim C3 -/

/-- C3 (counterexample): the string of nine ASCII digits followed by the
superscript two has length ten and passes `Phone` construction, yet it is
not made of ASCII digits only — Python's `isdigit` accepts non-ASCII digit
characters. -/
theorem phone_accepts_superscript_digit :
    (Phone.init phoneSuper).isOk = true ∧ specAsciiDigits phoneSuper = false := by
  decide

/-- C3 (amended): `Phone` construction succeeds exactly when the string has
length ten and passes Python's `isdigit` test — a superset of the ASCII
digits — and in particular every string of exactly ten ASCII digits is
accepted. -/
theorem phone_init_spec (s : String) :
    ((Phone.init s).isOk = true ↔ (pyIsdigit s = true ∧ s.length = 10)) ∧
    (specAsciiDigits s = true → (Phone.init s).isOk = true) := by
  have hiff : (Phone.init s).isOk = true ↔ (pyIsdigit s = true ∧ s.length = 10) := by
    unfold Phone.init
    split
    · rename_i h
      simp only [Except.isOk, Except.toBool]
      constructor
      · intro hfalse; exact absurd hfalse (by simp)
      · rintro ⟨h1, h2⟩
        rcases h with h | h
        · rw [h1] at h; exact absurd h (by simp)
        · exact absurd h2 h
    · rename_i h
      push_neg at h
      simp only [Except.isOk, Except.toBool, true_iff]
      exact ⟨Bool.not_eq_false _ |>.mp h.1, h.2⟩
  refine ⟨hiff, fun hspec => ?_⟩
  rw [hiff]
  unfold specAsciiDigits at hspec
  simp only [Bool.and_eq_true, beq_iff_eq, List.all_eq_true] at hspec
  obtain ⟨hlen, hall⟩ := hspec
  refine ⟨?_, hlen⟩
  unfold pyIsdigit
  have hne : s.data.isEmpty = false := by
    have : s.data.length = 10 := hlen
    cases hd : s.data with
    | nil => rw [hd] at this; simp at this
    | cons a l => simp
  rw [hne]
  simp only [Bool.not_false, Bool.true_and, List.all_eq_true]
  intro c hc
  unfold pyIsDigitChar
  rw [hall c hc]
  simp

/-- C3 (witness): the all-ASCII-digit string 0123456789 is accepted. -/
theorem phone_init_spec_witness : (Phone.init "0123456789").isOk = true :=
  (phone_init_spec "0123456789").2 (by decide)

theorem len_pos_left {a : String} (b : String) (h : 0 < a.length) :
    0 < (a ++ b).length := by
  rw [String.length_append]
  omega

theorem len_pos_right (a : String) {b : String} (h : 0 < b.length) :
    0 < (a ++ b).length := by
  rw [String.length_append]
  omega

theorem keyError_str_pos (m : String) : 0 < (Err.keyError m).str.length := by
  show 0 < (squote ++ m ++ squote).length
  exact len_pos_right _ (by decide)

theorem pyJoin_cons_pos {x : String} (sep : String) (xs : List String)
    (h : 0 < x.length) : 0 < (pyJoin sep (x :: xs)).length := by
  cases xs with
  | nil => exact h
  | cons y rest => exact len_pos_left _ (len_pos_left _ h)

theorem except_map_error {α β γ : Type} {f : α → β} {x : Except γ α} {e : γ}
    (h : x.map f = .error e) : x = .error e := by
  cases x with
  | ok a => simp [Except.map] at h
  | error e0 =>
    simp only [Except.map] at h
    injection h with h1
    rw [h1]

theorem addPhones_some_err {ps : List String} {r r1 : Record} {e : Err}
    (h : addPhones r ps = (r1, some e)) :
    e = .valueError "Phone number must be 10 digits" := by
  induction ps generalizing r with
  | nil =>
    unfold addPhones at h
    injection h with h1 h2
    exact absurd h2 (by simp)
  | cons p ps ih =>
    unfold addPhones at h
    cases hp : Phone.init p with
    | ok ph =>
      rw [hp] at h
      exact ih h
    | error e0 =>
      rw [hp] at h
      injection h with h1 h2
      injection h2 with h3
      rw [← h3]
      exact phone_init_error hp

theorem changeList_err {old new : String} {ps : List Phone} {e : Err}
    (h : changeList old new ps = .error e) :
    e = .valueError "Old phone not found." ∨
    e = .valueError "Phone number must be 10 digits" := by
  induction ps with
  | nil =>
    unfold changeList at h
    injection h with h1
    exact Or.inl h1.symm
  | cons p ps ih =>
    unfold changeList at h
    split at h
    · exact Or.inr (phone_init_error (except_map_error h))
    · exact ih (except_map_error h)

theorem record_add_birthday_err {r : Record} {s : String} {e : Err}
    (h : Record.add_birthday r s = .error e) :
    e = .valueError "Invalid date format. Use DD.MM.YYYY" ∨
    e = .valueError
      "Birthday is already set. To change it, use the change_birthday." := by
  unfold Record.add_birthday at h
  split at h
  · exact Or.inl (birthday_init_error (except_map_error h))
  · injection h with h1
    exact Or.inr h1.symm

theorem upcomingStep_err {today : DateTime} {r : Record} {e : Err}
    (h : upcomingStep today r = .error e) :
    e = .valueError "day is out of range for month" := by
  unfold upcomingStep at h
  split at h
  · exact absurd h (by simp)
  · split at h
    · injection h with h1
      exact h1.symm
    · split at h
      · exact absurd h (by simp)
      · exact absurd h (by simp)

theorem upcomingGo_err {today : DateTime} {entries : List (String × Record)}
    {e : Err} (h : upcomingGo today entries = .error e) :
    e = .valueError "day is out of range for month" := by
  induction entries generalizing e with
  | nil =>
    unfold upcomingGo at h
    exact absurd h (by simp)
  | cons hd tl ih =>
    obtain ⟨k, r⟩ := hd
    unfold upcomingGo at h
    split at h
    · rename_i hs
      injection h with h1
      rw [← h1]
      exact upcomingStep_err hs
    · exact ih h
    · exact ih (except_map_error h)

theorem addMsg_pos (name : String) (phones : List String) :
    0 < (addMsg name phones).length :=
  len_pos_right _ (by decide)

theorem add_contact_msg (args : List String) (book : AddressBook) :
    (∀ res, add_contact args book = .ok res → 0 < res.1.length) ∧
    (∀ e b, add_contact args book = .error (e, b) → 0 < e.str.length) := by
  constructor
  · intro res h
    rcases args with _ | ⟨name, _ | ⟨phone1, rest⟩⟩
    · simp [add_contact] at h
    · simp [add_contact] at h
    · simp only [add_contact] at h
      split at h
      · split at h
        · injection h with h1
          rw [← h1]
          exact addMsg_pos _ _
        · exact absurd h (by simp)
      · split at h
        · injection h with h1
          rw [← h1]
          exact addMsg_pos _ _
        · exact absurd h (by simp)
  · intro e b h
    rcases args with _ | ⟨name, _ | ⟨phone1, rest⟩⟩
    · simp only [add_contact] at h
      injection h with h1
      injection h1 with h2 h3
      rw [← h2]
      decide
    · simp only [add_contact] at h
      injection h with h1
      injection h1 with h2 h3
      rw [← h2]
      decide
    · simp only [add_contact] at h
      split at h
      · split at h
        · exact absurd h (by simp)
        · rename_i heq
          injection h with h1
          injection h1 with h2 h3
          rw [← h2, addPhones_some_err heq]
          decide
      · split at h
        · exact absurd h (by simp)
        · rename_i heq
          injection h with h1
          injection h1 with h2 h3
          rw [← h2, addPhones_some_err heq]
          decide

theorem change_contact_msg (args : List String) (book : AddressBook) :
    (∀ res, change_contact args book = .ok res → 0 < res.1.length) ∧
    (∀ e b, change_contact args book = .error (e, b) → 0 < e.str.length) := by
  unfold change_contact
  constructor
  · intro res h
    split at h
    · split at h
      · exact absurd h (by simp)
      · split at h
        · exact absurd h (by simp)
        · injection h with h1
          rw [← h1]
          exact len_pos_right _ (by decide)
    · exact absurd h (by simp)
  · intro e b h
    split at h
    · split at h
      · injection h with h1
        injection h1 with h2 h3
        rw [← h2]
        exact keyError_str_pos _
      · split at h
        · rename_i heq
          injection h with h1
          injection h1 with h2 h3
          rw [← h2]
          have := changeList_err (except_map_error heq)
          rcases this with h4 | h4 <;> rw [h4] <;> decide
        · exact absurd h (by simp)
    · injection h with h1
      injection h1 with h2 h3
      rw [← h2]
      decide

theorem show_phone_msg (args : List String) (book : AddressBook) :
    (∀ res, show_phone args book = .ok res → 0 < res.1.length) ∧
    (∀ e b, show_phone args book = .error (e, b) → 0 < e.str.length) := by
  unfold show_phone
  constructor
  · intro res h
    split at h
    · split at h
      · exact absurd h (by simp)
      · injection h with h1
        rw [← h1]
        exact len_pos_left _ (len_pos_right _ (by decide))
    · exact absurd h (by simp)
  · intro e b h
    split at h
    · split at h
      · injection h with h1
        injection h1 with h2 h3
        rw [← h2]
        exact keyError_str_pos _
      · exact absurd h (by simp)
    · injection h with h1
      injection h1 with h2 h3
      rw [← h2]
      decide

theorem show_all_msg (book : AddressBook) :
    ∀ res, show_all book = .ok res → 0 < res.1.length := by
  unfold show_all
  intro res h
  split at h
  · injection h with h1
    rw [← h1]
    show 0 < ("No contacts found." : String).length
    decide
  · injection h with h1
    rw [← h1]
    show 0 < (pyJoin "\n" (_ :: _)).length
    exact pyJoin_cons_pos _ _ (len_pos_left _ (len_pos_right _ (by decide)))

theorem add_birthday_msg (args : List String) (book : AddressBook) :
    (∀ res, add_birthday args book = .ok res → 0 < res.1.length) ∧
    (∀ e b, add_birthday args book = .error (e, b) → 0 < e.str.length) := by
  unfold add_birthday
  constructor
  · intro res h
    split at h
    · split at h
      · split at h
        · injection h with h1
          rw [← h1]
          exact len_pos_right _ (by decide)
        · exact absurd h (by simp)
      · injection h with h1
        rw [← h1]
        show 0 < ("Contact not found." : String).length
        decide
    · exact absurd h (by simp)
  · intro e b h
    split at h
    · split at h
      · split at h
        · exact absurd h (by simp)
        · rename_i heq
          injection h with h1
          injection h1 with h2 h3
          rw [← h2]
          rcases record_add_birthday_err heq with h4 | h4 <;> rw [h4] <;> decide
      · exact absurd h (by simp)
    · injection h with h1
      injection h1 with h2 h3
      rw [← h2]
      decide

theorem show_birthday_msg (args : List String) (book : AddressBook) :
    (∀ res, show_birthday args book = .ok res → 0 < res.1.length) ∧
    (∀ e b, show_birthday args book = .error (e, b) → 0 < e.str.length) := by
  unfold show_birthday
  constructor
  · intro res h
    split at h
    · split at h
      · split at h
        · injection h with h1
          rw [← h1]
          exact len_pos_left _ (len_pos_right _ (by decide))
        · injection h with h1
          rw [← h1]
          show 0 < ("Birthday not found." : String).length
          decide
      · injection h with h1
        rw [← h1]
        show 0 < ("Birthday not found." : String).length
        decide
    · exact absurd h (by simp)
  · intro e b h
    split at h
    · split at h
      · split at h
        · exact absurd h (by simp)
        · exact absurd h (by simp)
      · exact absurd h (by simp)
    · injection h with h1
      injection h1 with h2 h3
      rw [← h2]
      decide

theorem birthdays_msg (today : DateTime) (a : Option (List String))
    (book : AddressBook) :
    (∀ res, birthdays today a book = .ok res → 0 < res.1.length) ∧
    (∀ e b, birthdays today a book = .error (e, b) → 0 < e.str.length) := by
  unfold birthdays
  constructor
  · intro res h
    split at h
    · exact absurd h (by simp)
    · split at h
      · injection h with h1
        rw [← h1]
        show 0 < ("No upcoming birthdays next week." : String).length
        decide
      · injection h with h1
        rw [← h1]
        exact len_pos_left _ (by decide)
  · intro e b h
    split at h
    · rename_i heq
      injection h with h1
      injection h1 with h2 h3
      rw [← h2, upcomingGo_err heq]
      decide
    · split at h
      · exact absurd h (by simp)
      · exact absurd h (by simp)

/-! ### Claim C2 -/

/-- C2: every wrapped handler always yields a (nonempty) message string —
a raised validation failure is converted to its display string at the
adapter instead of escaping — and in particular `show_phone` on an absent
name returns the rendered KeyError message, not an exception. -/
theorem handlers_always_answer :
    (∀ args book, 0 < (wrapped_add_contact args book).1.length) ∧
    (∀ args book, 0 < (wrapped_change_contact args book).1.length) ∧
    (∀ args book, 0 < (wrapped_show_phone args book).1.length) ∧
    (∀ book, 0 < (wrapped_show_all book).1.length) ∧
    (∀ args book, 0 < (wrapped_add_birthday args book).1.length) ∧
    (∀ args book, 0 < (wrapped_show_birthday args book).1.length) ∧
    (∀ today a book, 0 < (wrapped_birthdays today a book).1.length) ∧
    wrapped_show_phone ["NoSuchName"] emptyBook =
      (squote ++ "Contact not found." ++ squote, emptyBook) := by
  refine ⟨?_, ?_, ?_, ?_, ?_, ?_, ?_, by decide⟩
  · intro args book
    unfold wrapped_add_contact input_error
    cases hrun : add_contact args book with
    | ok res => exact (add_contact_msg args book).1 res hrun
    | error eb =>
      obtain ⟨e, b⟩ := eb
      exact (add_contact_msg args book).2 e b hrun
  · intro args book
    unfold wrapped_change_contact input_error
    cases hrun : change_contact args book with
    | ok res => exact (change_contact_msg args book).1 res hrun
    | error eb =>
      obtain ⟨e, b⟩ := eb
      exact (change_contact_msg args book).2 e b hrun
  · intro args book
    unfold wrapped_show_phone input_error
    cases hrun : show_phone args book with
    | ok res => exact (show_phone_msg args book).1 res hrun
    | error eb =>
      obtain ⟨e, b⟩ := eb
      exact (show_phone_msg args book).2 e b hrun
  · intro book
    unfold wrapped_show_all input_error
    cases hrun : show_all book with
    | ok res =>
      simp only [hrun]
      exact show_all_msg book res hrun
    | error eb =>
      exact absurd hrun (by unfold show_all; split <;> simp)
  · intro args book
    unfold wrapped_add_birthday input_error
    cases hrun : add_birthday args book with
    | ok res => exact (add_birthday_msg args book).1 res hrun
    | error eb =>
      obtain ⟨e, b⟩ := eb
      exact (add_birthday_msg args book).2 e b hrun
  · intro args book
    unfold wrapped_show_birthday input_error
    cases hrun : show_birthday args book with
    | ok res => exact (show_birthday_msg args book).1 res hrun
    | error eb =>
      obtain ⟨e, b⟩ := eb
      exact (show_birthday_msg args book).2 e b hrun
  · intro today a book
    unfold wrapped_birthdays input_error
    cases hrun : birthdays today a book with
    | ok res => exact (birthdays_msg today a book).1 res hrun
    | error eb =>
      obtain ⟨e, b⟩ := eb
      exact (birthdays_msg today a book).2 e b hrun

/-- C2 (witness): the adapter answer for a lookup miss is nonempty. -/
theorem handlers_always_answer_witness :
    0 < (wrapped_show_phone ["NoSuchName"] emptyBook).1.length :=
  handlers_always_answer.2.2.1 ["NoSuchName"] emptyBook

/-! ### Claim C4 -/

theorem upcomingStep_some_name {today : DateTime} {r : Record}
    {item : String × String}
    (h : upcomingStep today r = .ok (some item)) : item.1 = r.name := by
  unfold upcomingStep at h
  split at h
  · simp at h
  · split at h
    · simp at h
    · split at h
      · injection h with h1
        injection h1 with h2
        rw [← h2]
      · simp at h

theorem upcomingStep_some_spec {today : DateTime} {r : Record}
    {item : String × String}
    (h : upcomingStep today r = .ok (some item)) :
    specInWindow today r = true := by
  unfold upcomingStep at h
  unfold specInWindow
  split at h
  · simp at h
  · split at h
    · simp at h
    · split at h
      · rename_i hcond
        simp [hcond.1, hcond.2]
      · simp at h

theorem upcomingStep_none_spec {today : DateTime} {r : Record}
    (h : upcomingStep today r = .ok none) :
    specInWindow today r = false := by
  unfold upcomingStep at h
  unfold specInWindow
  split at h
  · rfl
  · split at h
    · simp at h
    · rename_i occ hocc
      split at h
      · simp at h
      · rename_i hcond
        cases hd1 : dtLe today occ with
        | false => simp [hd1]
        | true =>
          cases ht1 : tlLe (timeline occ) (toOrdinal today + 7, today.tod) with
          | false => simp [ht1]
          | true => exact absurd ⟨hd1, ht1⟩ hcond

theorem upcomingGo_names_subset {today : DateTime}
    {entries : List (String × Record)} {l : List (String × String)}
    (hok : upcomingGo today entries = .ok l) :
    ∀ x ∈ l, x.1 ∈ entries.map (fun e => e.2.name) := by
  induction entries generalizing l with
  | nil =>
    injection hok with h1
    rw [← h1]
    intro x hx
    exact absurd hx (List.not_mem_nil x)
  | cons hd tl ih =>
    obtain ⟨k, r⟩ := hd
    unfold upcomingGo at hok
    split at hok
    · simp at hok
    · rename_i hs
      intro x hx
      exact List.mem_cons_of_mem _ (ih hok x hx)
    · rename_i item hs
      cases hgo : upcomingGo today tl with
      | error e =>
        rw [hgo] at hok
        simp [Except.map] at hok
      | ok l0 =>
        rw [hgo] at hok
        simp only [Except.map] at hok
        injection hok with h1
        rw [← h1]
        intro x hx
        rcases List.mem_cons.mp hx with rfl | hx0
        · rw [upcomingStep_some_name hs]
          exact List.mem_cons_self _ _
        · exact List.mem_cons_of_mem _ (ih hgo x hx0)

theorem upcomingGo_mem {today : DateTime} {entries : List (String × Record)}
    {l : List (String × String)}
    (hok : upcomingGo today entries = .ok l)
    (hnd : (entries.map (fun e => e.2.name)).Nodup) :
    ∀ e ∈ entries, (specInWindow today e.2 = true ↔ e.2.name ∈ l.map Prod.fst) := by
  induction entries generalizing l with
  | nil => intro e he; exact absurd he (List.not_mem_nil e)
  | cons hd tl ih =>
    obtain ⟨k, r⟩ := hd
    rw [List.map_cons, List.nodup_cons] at hnd
    unfold upcomingGo at hok
    split at hok
    · simp at hok
    · rename_i hs
      intro e he
      rcases List.mem_cons.mp he with rfl | hetl
      · rw [upcomingStep_none_spec hs]
        simp only [Bool.false_eq_true, false_iff]
        intro hmem
        obtain ⟨x, hx, hx1⟩ := List.mem_map.mp hmem
        have hsub := upcomingGo_names_subset hok x hx
        rw [hx1] at hsub
        exact hnd.1 hsub
      · exact ih hok hnd.2 e hetl
    · rename_i item hs
      cases hgo : upcomingGo today tl with
      | error e2 =>
        rw [hgo] at hok
        simp [Except.map] at hok
      | ok l0 =>
        rw [hgo] at hok
        simp only [Except.map] at hok
        injection hok with h1
        rw [← h1]
        intro e he
        rcases List.mem_cons.mp he with rfl | hetl
        · rw [upcomingStep_some_spec hs]
          simp only [true_iff, List.map_cons, upcomingStep_some_name hs]
          exact List.mem_cons_self _ _
        · have hne : e.2.name ≠ r.name := by
            intro hcontra
            refine hnd.1 ?_
            rw [← hcontra]
            exact List.mem_map_of_mem (fun x => x.2.name) hetl
          rw [ih hgo hnd.2 e hetl]
          simp only [List.map_cons, List.mem_cons, upcomingStep_some_name hs]
          constructor
          · intro hmem
            exact Or.inr hmem
          · rintro (hcontra | hmem)
            · exact absurd hcontra hne
            · exact hmem

/-- C4: whenever `get_upcoming_birthdays` returns a list, a stored record
appears in it (by name) exactly when it has a birthday set and its
occurrence — the birthday date with the year replaced by the reference
year — lies between the reference instant and seven days later; a birthday
falling earlier in the reference year never wraps into the next year's
window. -/
theorem upcoming_birthdays_window (book : AddressBook) (today : DateTime)
    (l : List (String × String))
    (hok : book.get_upcoming_birthdays today = .ok l)
    (hnd : (book.data.map (fun e => e.2.name)).Nodup) :
    ∀ e ∈ book.data,
      (specInWindow today e.2 = true ↔ e.2.name ∈ l.map Prod.fst) :=
  upcomingGo_mem hok hnd

/-- C4 (witness): with reference instant 2024-06-01, the records with
birthdays 2000-06-05, 2000-06-15 and 2000-05-30 are classified as the
claim's examples demand: only the 5 June record is listed, with
occurrence 05.06.2024. -/
theorem upcoming_birthdays_window_witness :
    bookJune.get_upcoming_birthdays refJune1 = .ok [("A", "05.06.2024")] ∧
    (specInWindow refJune1 ⟨"A", [], some ⟨⟨2000, 6, 5, 0⟩⟩⟩ = true ↔
      ("A" : String) ∈ ([("A", "05.06.2024")].map Prod.fst)) ∧
    (specInWindow refJune1 ⟨"B", [], some ⟨⟨2000, 6, 15, 0⟩⟩⟩ = true ↔
      ("B" : String) ∈ ([("A", "05.06.2024")].map Prod.fst)) ∧
    (specInWindow refJune1 ⟨"C", [], some ⟨⟨2000, 5, 30, 0⟩⟩⟩ = true ↔
      ("C" : String) ∈ ([("A", "05.06.2024")].map Prod.fst)) :=
  ⟨rfl,
   upcoming_birthdays_window bookJune refJune1 _ rfl (by decide)
     ("A", ⟨"A", [], some ⟨⟨2000, 6, 5, 0⟩⟩⟩) (by decide),
   upcoming_birthdays_window bookJune refJune1 _ rfl (by decide)
     ("B", ⟨"B", [], some ⟨⟨2000, 6, 15, 0⟩⟩⟩) (by decide),
   upcoming_birthdays_window bookJune refJune1 _ rfl (by decide)
     ("C", ⟨"C", [], some ⟨⟨2000, 5, 30, 0⟩⟩⟩) (by decide)⟩

/-! ### Claim C5 -/

/-- C5 (counterexample): with a stored birthday of 29 February 2024 and the
non-leap reference instant 2023-06-01, `get_upcoming_birthdays` does not
return normally: it raises the day-out-of-range ValueError, which only the
command adapter converts to a message — the record is not skipped. -/
theorem upcoming_feb29_error_concrete :
    bookLeap.get_upcoming_birthdays refNonLeap =
      .error (.valueError "day is out of range for month") ∧
    wrapped_birthdays refNonLeap none bookLeap =
      ("day is out of range for month", bookLeap) :=
  ⟨rfl, rfl⟩

theorem upcomingStep_feb29 {today : DateTime} {r : Record} {b : Birthday}
    (hleap : isLeap today.year = false) (hb : r.birthday = some b)
    (hm2 : b.value.month = 2) (hd29 : b.value.day = 29) :
    upcomingStep today r = .error (.valueError "day is out of range for month") := by
  have hnone : replaceYear b.value today.year = none := by
    unfold replaceYear
    rw [if_neg]
    rw [hm2, hd29]
    unfold daysInMonth
    simp [hleap]
  unfold upcomingStep
  simp only [hb, hnone]

theorem upcomingGo_cons_error (today : DateTime) (k : String) (r : Record)
    (tl : List (String × Record))
    (h : ∃ e, upcomingGo today tl = .error e) :
    ∃ e, upcomingGo today ((k, r) :: tl) = .error e := by
  obtain ⟨err, herr⟩ := h
  unfold upcomingGo
  cases hs : upcomingStep today r with
  | error e => exact ⟨e, rfl⟩
  | ok o =>
    cases o with
    | none => exact ⟨err, herr⟩
    | some item =>
      rw [herr]
      exact ⟨err, rfl⟩

theorem upcomingGo_error_of_feb29 (today : DateTime)
    (entries : List (String × Record))
    (hleap : isLeap today.year = false)
    (hmem : ∃ e ∈ entries, ∃ b, e.2.birthday = some b ∧
      b.value.month = 2 ∧ b.value.day = 29) :
    ∃ err, upcomingGo today entries = .error err := by
  induction entries with
  | nil =>
    obtain ⟨en, hen, _⟩ := hmem
    exact absurd hen (List.not_mem_nil en)
  | cons hd tl ih =>
    obtain ⟨en, hen, b, hb, hm2, hd29⟩ := hmem
    obtain ⟨k, r⟩ := hd
    rcases List.mem_cons.mp hen with heq | htl
    · have hb2 : r.birthday = some b := by
        rw [heq] at hb
        exact hb
      unfold upcomingGo
      rw [upcomingStep_feb29 hleap hb2 hm2 hd29]
      exact ⟨_, rfl⟩
    · exact upcomingGo_cons_error today k r tl (ih ⟨en, htl, b, hb, hm2, hd29⟩)

/-- C5 (amended): whenever the store holds a record whose birthday is 29
February and the reference year is not a leap year, `get_upcoming_birthdays`
raises (returns an error) instead of returning a list with the record
skipped. -/
theorem upcoming_feb29_raises (book : AddressBook) (today : DateTime)
    (hleap : isLeap today.year = false)
    (hmem : ∃ e ∈ book.data, ∃ b, e.2.birthday = some b ∧
      b.value.month = 2 ∧ b.value.day = 29) :
    ∃ err, book.get_upcoming_birthdays today = .error err :=
  upcomingGo_error_of_feb29 today book.data hleap hmem

/-- C5 (amended, witness): the concrete leap-birthday store raises. -/
theorem upcoming_feb29_raises_witness :
    ∃ err, bookLeap.get_upcoming_birthdays refNonLeap = .error err :=
  upcoming_feb29_raises bookLeap refNonLeap (by decide)
    ⟨("Leap", ⟨"Leap", [], some ⟨⟨2024, 2, 29, 0⟩⟩⟩), by decide, ⟨⟨2024, 2, 29, 0⟩⟩,
      rfl, rfl, rfl⟩

/-! ### Claim C6 -/

/-- C6: calling `add_contact` twice with the same name and one valid phone
each time leaves exactly one record stored under that name; the record
keeps whatever phones and birthday it had before and ends with both new
phones appended in order — the second call updates instead of duplicating
or clobbering. -/
theorem add_contact_same_name_twice (book : AddressBook) (name p q : String)
    (pp qq : Phone) (hwf : bookWF book)
    (hp : Phone.init p = .ok pp) (hq : Phone.init q = .ok qq) :
    ∃ m1 b1 m2 b2,
      add_contact [name, p] book = .ok (m1, b1) ∧
      add_contact [name, q] b1 = .ok (m2, b2) ∧
      dictGet b2.data name =
        some ⟨name,
          ((dictGet book.data name).map Record.phones).getD [] ++ [pp, qq],
          ((dictGet book.data name).bind Record.birthday)⟩ ∧
      (b2.data.map Prod.fst).count name = 1 := by
  cases hget : dictGet book.data name with
  | none =>
    have e1 := add_contact_fresh hget hp
    set rec1 : Record := ⟨name, [pp], none⟩ with hrec1
    have hget1 : dictGet (book.data ++ [(name, rec1)]) name = some rec1 := by
      rw [dictGet_append_of_none hget]
      simp [dictGet]
    have e2 := add_contact_existing hget1 rfl hq
    refine ⟨_, _, _, _, e1, e2, ?_, ?_⟩
    · rw [dictGet_insert_self]
      simp [hget, hrec1]
    · dsimp only
      rw [dictInsert_mapfst_of_get_some _ hget1]
      rw [List.map_append, List.count_append]
      rw [count_zero_of_get_none hget]
      simp [List.count_cons]
  | some r0 =>
    have hname : r0.name = name := hwf.2 (name, r0) (dictGet_mem hget)
    have e1 := add_contact_existing hget hname hp
    set rec1 : Record := { r0 with phones := r0.phones ++ [pp] } with hrec1
    have hget1 : dictGet (dictInsert book.data name rec1) name = some rec1 :=
      dictGet_insert_self _ _ _
    have e2 := add_contact_existing hget1 hname hq
    refine ⟨_, _, _, _, e1, e2, ?_, ?_⟩
    · rw [dictInsert_insert, dictGet_insert_self]
      simp [hget, hrec1, hname]
    · rw [dictInsert_insert]
      dsimp only
      rw [dictInsert_mapfst_of_get_some _ hget]
      have hcmem : name ∈ book.data.map Prod.fst :=
        List.mem_map_of_mem Prod.fst (dictGet_mem hget)
      exact List.count_eq_one_of_mem hwf.1 hcmem

/-- C6 (witness): adding Alice with 1234567890 then with 0987654321 to the
empty book yields one Alice record with both phones in order. -/
theorem add_contact_same_name_twice_witness :
    ∃ m1 b1 m2 b2,
      add_contact ["Alice", "1234567890"] emptyBook = .ok (m1, b1) ∧
      add_contact ["Alice", "0987654321"] b1 = .ok (m2, b2) ∧
      dictGet b2.data "Alice" =
        some ⟨"Alice",
          ((dictGet emptyBook.data "Alice").map Record.phones).getD [] ++
            [⟨"1234567890"⟩, ⟨"0987654321"⟩],
          ((dictGet emptyBook.data "Alice").bind Record.birthday)⟩ ∧
      (b2.data.map Prod.fst).count "Alice" = 1 :=
  add_contact_same_name_twice emptyBook "Alice" "1234567890" "0987654321"
    ⟨"1234567890"⟩ ⟨"0987654321"⟩ ⟨by decide, by decide⟩ rfl rfl

/-! ### Claim C10 -/

/-- C10: when the name is absent from the store and any of the supplied
phone strings fails validation, `add_contact` raises before the record is
inserted: the error carries the untouched book, no record is created under
the new name, and the wrapped handler returns the error message with the
same untouched book. -/
theorem add_contact_invalid_phone_unchanged (book : AddressBook)
    (name phone1 : String) (phones : List String)
    (hfresh : dictGet book.data name = none)
    (hbad : ∃ p ∈ phone1 :: phones, (Phone.init p).isOk = false) :
    ∃ e, add_contact (name :: phone1 :: phones) book = .error (e, book) ∧
      wrapped_add_contact (name :: phone1 :: phones) book = (e.str, book) := by
  obtain ⟨r1, e, h1⟩ := addPhones_invalid (Record.init name) hbad
  have hrun : add_contact (name :: phone1 :: phones) book = .error (e, book) := by
    unfold add_contact
    simp only [hfresh, h1]
  exact ⟨e, hrun, by unfold wrapped_add_contact input_error; rw [hrun]⟩

/-- C10 (witness): adding Bob with a valid phone followed by the invalid
12345 fails and leaves the empty book empty. -/
theorem add_contact_invalid_phone_unchanged_witness :
    ∃ e, add_contact ["Bob", "1234567890", "12345"] emptyBook =
        .error (e, emptyBook) ∧
      wrapped_add_contact ["Bob", "1234567890", "12345"] emptyBook =
        (e.str, emptyBook) :=
  add_contact_invalid_phone_unchanged emptyBook "Bob" "1234567890" ["12345"]
    rfl ⟨"12345", by decide, by decide⟩

/-! ### Claim C7 -/

/-- C7: on a record without a birthday, a first `add_birthday` with a valid
date string sets it, and afterwards every further `add_birthday` call, with
any argument, fails with the already-set ValueError, leaving no way to
overwrite the stored value. -/
theorem add_birthday_once (r : Record) (s : String) (b : Birthday)
    (h0 : r.birthday = none) (hs : Birthday.init s = .ok b) :
    Record.add_birthday r s = .ok { r with birthday := some b } ∧
    ∀ t, Record.add_birthday { r with birthday := some b } t =
      .error (.valueError
        "Birthday is already set. To change it, use the change_birthday.") := by
  constructor
  · unfold Record.add_birthday
    rw [h0, hs]
    rfl
  · intro t
    rfl

/-- C7 (witness): setting 29.02.2024 on a fresh record succeeds, and a
second call with a different valid date fails with the already-set error
while the first value stands. -/
theorem add_birthday_once_witness :
    Record.add_birthday recBob "29.02.2024" =
      .ok ⟨"Bob", [], some ⟨⟨2024, 2, 29, 0⟩⟩⟩ ∧
    Record.add_birthday ⟨"Bob", [], some ⟨⟨2024, 2, 29, 0⟩⟩⟩ "01.01.1999" =
      .error (.valueError
        "Birthday is already set. To change it, use the change_birthday.") :=
  ⟨(add_birthday_once recBob "29.02.2024" ⟨⟨2024, 2, 29, 0⟩⟩ rfl rfl).1,
   (add_birthday_once recBob "29.02.2024" ⟨⟨2024, 2, 29, 0⟩⟩ rfl rfl).2 "01.01.1999"⟩

/-! ### Claim C8 -/

/-- C8: `change_phone` scans for the first phone whose stored value equals
the old text: when none matches it fails with the not-found ValueError and
produces no changed record; when the first match is found it replaces
exactly that entry with a newly validated phone, propagating the format
error when the new text is invalid. -/
theorem change_phone_first_match (r : Record) (old new : String) :
    ((∀ p ∈ r.phones, p.value ≠ old) →
      r.change_phone old new = .error (.valueError "Old phone not found.")) ∧
    (∀ pre ph post, r.phones = pre ++ ph :: post →
      (∀ p ∈ pre, p.value ≠ old) → ph.value = old →
      (∀ np, Phone.init new = .ok np →
        r.change_phone old new = .ok { r with phones := pre ++ np :: post }) ∧
      (∀ e, Phone.init new = .error e →
        r.change_phone old new = .error e)) := by
  constructor
  · intro h
    unfold Record.change_phone
    rw [changeList_not_found h]
    rfl
  · intro pre ph post hsplit hpre hph
    constructor
    · intro np hnp
      unfold Record.change_phone
      rw [hsplit, changeList_found_ok hpre hph hnp]
      rfl
    · intro e he
      unfold Record.change_phone
      rw [hsplit, changeList_found_error hpre hph he]
      rfl

/-- C8 (witness): on the record with the single phone 1111111111, changing
1111111111 to 2222222222 replaces it in place, and changing 9999999999
fails with the not-found error. -/
theorem change_phone_first_match_witness :
    recX.change_phone "1111111111" "2222222222" =
      .ok ⟨"X", [⟨"2222222222"⟩], none⟩ ∧
    recX.change_phone "9999999999" "2222222222" =
      .error (.valueError "Old phone not found.") :=
  ⟨(((change_phone_first_match recX "1111111111" "2222222222").2
      [] ⟨"1111111111"⟩ [] rfl (by simp) rfl).1 ⟨"2222222222"⟩ rfl),
   (change_phone_first_match recX "9999999999" "2222222222").1 (by decide)⟩

/-! ### Claim C9 -/

theorem daysInMonth_le31 (y m : Nat) : daysInMonth y m ≤ 31 := by
  unfold daysInMonth
  split
  · split <;> omega
  · split <;> omega

/-- C9 (counterexample): the text 1.1.2024 does not match the strict
DD.MM.YYYY shape, yet `Birthday` construction succeeds on it — `strptime`
accepts day and month written with a single digit. -/
theorem birthday_accepts_single_digit :
    (Birthday.init "1.1.2024").isOk = true ∧
    specStrictDDMMYYYY "1.1.2024" = false := by
  decide

/-- C9 (amended): `Birthday` construction succeeds exactly when the text is
day, month and four-digit year separated by dots, the day and month written
with or without a leading zero, denoting a valid calendar date; the strict
two-digit DD.MM.YYYY form is sufficient but not necessary. -/
theorem birthday_init_characterization (s : String) :
    (Birthday.init s).isOk = true ↔ specLenientDate s := by
  constructor
  · intro h
    unfold Birthday.init at h
    cases hp : pyStrptimeDMY s with
    | none =>
      rw [hp] at h
      simp [Except.isOk, Except.toBool] at h
    | some dt =>
      clear h
      unfold pyStrptimeDMY at hp
      split at hp
      · simp at hp
      · rename_i d r1 heqD
        split at hp
        · simp at hp
        · rename_i r2 heqDot1
          split at hp
          · simp at hp
          · rename_i m r3 heqM
            split at hp
            · simp at hp
            · rename_i r4 heqDot2
              split at hp
              · simp at hp
              · rename_i y r5 heqY
                split at hp
                · split at hp
                  · rename_i hval
                    obtain ⟨hd1, hd31, hdsh⟩ := parseDay_sound heqD
                    have hr1 := expectDot_sound heqDot1
                    obtain ⟨hm1, hm12, hmsh⟩ := parseMonth_sound heqM
                    have hr3 := expectDot_sound heqDot2
                    obtain ⟨hy9999, hr4⟩ := parseYear4_sound heqY
                    rw [List.append_nil] at hr4
                    refine ⟨y, m, d, hval.1, hy9999, hval.2.1, hval.2.2.1,
                      hval.2.2.2.1, hval.2.2.2.2, ?_⟩
                    rcases hdsh with hds | ⟨hd9, hds⟩
                    · rcases hmsh with hms | ⟨hm9, hms⟩
                      · exact ⟨pad2Chars d, pad2Chars m, Or.inl rfl, Or.inl rfl,
                          by rw [hds, hr1, hms, hr3, hr4]; try rfl⟩
                      · exact ⟨pad2Chars d, [digitChar m], Or.inl rfl,
                          Or.inr ⟨hm9, rfl⟩,
                          by rw [hds, hr1, hms, hr3, hr4]; try rfl⟩
                    · rcases hmsh with hms | ⟨hm9, hms⟩
                      · exact ⟨[digitChar d], pad2Chars m, Or.inr ⟨hd9, rfl⟩,
                          Or.inl rfl,
                          by rw [hds, hr1, hms, hr3, hr4]; try rfl⟩
                      · exact ⟨[digitChar d], [digitChar m], Or.inr ⟨hd9, rfl⟩,
                          Or.inr ⟨hm9, rfl⟩,
                          by rw [hds, hr1, hms, hr3, hr4]; try rfl⟩
                  · simp at hp
                · simp at hp
  · rintro ⟨y, m, d, hy1, hy2, hm1, hm2, hd1, hdm, ds, ms, hds, hms, heq⟩
    have hd31 : d ≤ 31 := le_trans hdm (daysInMonth_le31 y m)
    have hday : parseDay s.data = some (d, '.' :: (ms ++ '.' :: pad4Chars y)) := by
      rcases hds with rfl | ⟨hd9, rfl⟩
      · rw [heq]
        exact parseDay_pad2 d _ hd1 hd31
      · rw [heq]
        exact parseDay_single d _ hd1 hd9
    have hmon : parseMonth (ms ++ '.' :: pad4Chars y) =
        some (m, '.' :: pad4Chars y) := by
      rcases hms with rfl | ⟨hm9, rfl⟩
      · exact parseMonth_pad2 m _ hm1 hm2
      · exact parseMonth_single m _ hm1 hm9
    have hyear : parseYear4 (pad4Chars y) = some (y, []) := by
      have hc := parseYear4_complete y [] hy2
      simpa using hc
    have hrun : pyStrptimeDMY s = some ⟨y, m, d, 0⟩ := by
      unfold pyStrptimeDMY
      rw [hday]
      simp [expectDot, hmon, hyear, hy1, hm1, hm2, hd1, hdm]
    unfold Birthday.init
    rw [hrun]
    rfl

/-- C9 (witness): the claim's leap-year example 29.02.2024 is accepted,
obtained from the characterization with the padded two-digit forms. -/
theorem birthday_init_characterization_witness :
    (Birthday.init "29.02.2024").isOk = true :=
  (birthday_init_characterization "29.02.2024").mpr
    ⟨2024, 2, 29, by decide, by decide, by decide, by decide, by decide,
      by decide, pad2Chars 29, pad2Chars 2, Or.inl rfl, Or.inl rfl, by decide⟩

end HW8
